import Mathlib

/-!
Shallow embedding of the cost-control, routing, caching and metrics core of
the CHATCHONKBETA backend, together with proofs of the specification claims.

Numeric values (Python `Decimal` / `float` / `int`) are embedded as exact
rationals `ℚ` (integers as `ℕ`/`ℤ`); Python's `int(x)` truncation on
non-negative quantities is embedded as natural-number floor division.
Fallible code is embedded with `Except`/`Option`.
-/

namespace ChatChonk

/-! ### Data model (src/backend/app/models/mswap_models.py) -/

/-- The `UserTier` enum (mswap_models.py). -/
inductive UserTier
  | free
  | lilbean
  | clawback
  | bigchonk
  | meowtrix
deriving DecidableEq, Repr

/-- The `ModelPriority` enum (mswap_models.py). -/
inductive ModelPriority
  | low
  | medium
  | high
  | critical
deriving DecidableEq, Repr

/-- The `SecurityLevel` enum (mswap_models.py). -/
inductive SecurityLevel
  | system
  | user
  | restricted
deriving DecidableEq, Repr

/-- The tier-default spending-limit bundle returned by
`UserSpendingLimits.get_tier_defaults` (mswap_models.py). -/
structure SpendingLimits where
  daily_cost_limit : ℚ
  daily_request_limit : ℕ
  daily_token_limit : ℕ
  hourly_cost_limit : ℚ
  hourly_request_limit : ℕ
  max_cost_per_request : ℚ
  max_tokens_per_request : ℕ
deriving DecidableEq, Repr

/-- Embeds `UserSpendingLimits.get_tier_defaults` (mswap_models.py lines 237-287).
`Decimal` literals become exact rationals. -/
def get_tier_defaults : UserTier → SpendingLimits
  | .free => ⟨1, 50, 10000, 1/4, 15, 1/10, 2000⟩
  | .lilbean => ⟨5, 200, 50000, 1, 50, 1/2, 4000⟩
  | .clawback => ⟨25, 1000, 250000, 5, 200, 2, 8000⟩
  | .bigchonk => ⟨100, 5000, 1000000, 20, 500, 10, 16000⟩
  | .meowtrix => ⟨500, 25000, 5000000, 100, 2000, 50, 32000⟩

/-- The fields of the MSWAP `Model` row used by cost calculation and scoring
(mswap_models.py `Model`). -/
structure MswapModel where
  cost_per_1k_prompt_tokens : ℚ
  cost_per_1k_completion_tokens : ℚ
  reliability : ℚ
  avg_latency : ℤ
deriving DecidableEq, Repr

/-! ### Cost Gate (src/backend/app/services/modelswapper_service.py) -/

/-- Embeds `self.emergency_cost_threshold = Decimal("50.00")`
(modelswapper_service.py line 71). -/
def emergency_cost_threshold : ℚ := 50

/-- The Python exceptions the ModelSwapper selection pipeline can raise:
the `TypeError` from multiplying a `float` by a `Decimal`, the
`CostLimitException` of the spending checks, a `ValueError` (bad input, or
the generic re-raise wrapper of `select_best_model`), and the `IndexError`
of an out-of-range list subscript. -/
inductive MswapError
  | typeError
  | costLimit (msg : String)
  | valueError (msg : String)
  | indexError
deriving DecidableEq, Repr

/-- Embeds `prompt_tokens = int(estimated_tokens * 0.7)`
(modelswapper_service.py line 222): truncation of `0.7 · n`.  This line
and the next do execute; `_calculate_cost` fails only afterwards. -/
def prompt_token_estimate (estimated_tokens : ℕ) : ℕ :=
  7 * estimated_tokens / 10

/-- Embeds `completion_tokens = int(estimated_tokens * 0.3)`
(modelswapper_service.py line 223). -/
def completion_token_estimate (estimated_tokens : ℕ) : ℕ :=
  3 * estimated_tokens / 10

/-- Embeds `_calculate_cost` (modelswapper_service.py lines 217-239).
After the token-split lines 222-223, line 225 computes
`(prompt_tokens / 1000) * model.cost_per_1k_prompt_tokens`; the division
of two ints is a Python `float`, while the pydantic `Model` coerces the
`Decimal`-annotated cost fields to `Decimal`, and `float * Decimal` raises
`TypeError`.  The function therefore raises on every invocation and never
returns a cost, for any model and any token count. -/
def calculate_cost (m : MswapModel) (estimated_tokens : ℕ) :
    Except MswapError ℚ :=
  .error .typeError

/-- The body of `_check_user_spending_limits` (modelswapper_service.py
lines 177-215) as a function of the limit bundle, the current spending
counters and the estimated cost.  The four `if` checks in source order;
`CostLimitException` becomes `Except.error` with the limit that fired. -/
def check_spending (limits : SpendingLimits)
    (current_daily_cost current_hourly_cost estimated_cost : ℚ) :
    Except String Unit :=
  if current_daily_cost + estimated_cost > limits.daily_cost_limit then
    .error "daily"
  else if current_hourly_cost + estimated_cost > limits.hourly_cost_limit then
    .error "hourly"
  else if estimated_cost > limits.max_cost_per_request then
    .error "per-request"
  else if estimated_cost > emergency_cost_threshold then
    .error "emergency"
  else
    .ok ()

/-- Embeds `_check_user_spending_limits` (modelswapper_service.py lines 177-215):
the current daily and hourly spending are the hard-coded mock value
`Decimal("0.00")` (lines 186-187). -/
def check_user_spending_limits (tier : UserTier) (estimated_cost : ℚ) :
    Except String Unit :=
  check_spending (get_tier_defaults tier) 0 0 estimated_cost

/-- Step 6 of `select_best_model` (modelswapper_service.py lines 292-297):
`using_user_keys = request.use_user_keys and request.user_tier in
[CLAWBACK, BIGCHONK, MEOWTRIX]`. -/
def select_using_user_keys (use_user_keys : Bool) (tier : UserTier) : Bool :=
  use_user_keys &&
    decide (tier ∈ ([.clawback, .bigchonk, .meowtrix] : List UserTier))

/-- Step 8 of `select_best_model` (modelswapper_service.py lines 317-319):
`SecurityLevel.USER if using_user_keys else SecurityLevel.SYSTEM`. -/
def select_security_level (use_user_keys : Bool) (tier : UserTier) :
    SecurityLevel :=
  if select_using_user_keys use_user_keys tier then .user else .system

/-! ### Performance metrics (src/backend/app/automodel/model_registry.py) -/

/-- The per-model performance dictionary created in `_load_all_models`
(model_registry.py lines 115-122).  Timestamps are abstract rationals. -/
structure ModelMetrics where
  total_requests : ℕ
  successful_requests : ℕ
  failed_requests : ℕ
  average_response_time : ℚ
  last_used : Option ℚ
  error_rate : ℚ
deriving DecidableEq, Repr

/-- The initial metrics entry (model_registry.py lines 115-122). -/
def initMetrics : ModelMetrics :=
  { total_requests := 0
    successful_requests := 0
    failed_requests := 0
    average_response_time := 0
    last_used := none
    error_rate := 0 }

/-- One `update_model_metrics` step on a single metrics entry
(model_registry.py lines 279-299), after the membership guard. -/
def updateMetrics (m : ModelMetrics) (success : Bool) (response_time : ℚ)
    (now : ℚ) : ModelMetrics :=
  let m1 := { m with total_requests := m.total_requests + 1
                     last_used := some now }
  let m2 :=
    if success then
      let total_successful := m1.successful_requests + 1
      { m1 with
        successful_requests := total_successful
        average_response_time :=
          (m1.average_response_time * ((total_successful : ℚ) - 1)
              + response_time) / (total_successful : ℚ) }
    else
      { m1 with failed_requests := m1.failed_requests + 1 }
  { m2 with
    error_rate :=
      if m2.total_requests > 0 then
        (m2.failed_requests : ℚ) / (m2.total_requests : ℚ)
      else 0 }

/-- The registry's `_performance_metrics` dictionary, embedded as an
association list keyed by model id. -/
abbrev MetricsMap := List (String × ModelMetrics)

/-- Embeds `ModelRegistry.update_model_metrics` (model_registry.py lines 260-299):
`if model_id not in self._performance_metrics: return`, then update the
entry in place. -/
def update_model_metrics (perf : MetricsMap) (model_id : String)
    (success : Bool) (response_time : ℚ) (now : ℚ) : MetricsMap :=
  if (perf.lookup model_id).isNone then perf
  else
    perf.map fun p =>
      if p.1 = model_id then (p.1, updateMetrics p.2 success response_time now)
      else p

/-- Fold a sequence of ledger events `(success, latency)` over one model's
metrics entry, starting from `initMetrics`; the `now` timestamp is
irrelevant to the tracked statistics and fixed at 0. -/
def applyEvents (events : List (Bool × ℚ)) : ModelMetrics :=
  events.foldl (fun acc e => updateMetrics acc e.1 e.2 0) initMetrics

/-! ### In-memory cache (src/backend/app/services/cache_service.py) -/

/-- One value of the `self._cache` dictionary
(cache_service.py lines 176-181).  Times are integers (seconds). -/
structure CacheEntry where
  value : String
  expires_at : ℤ
  created_at : ℤ
deriving DecidableEq, Repr

/-- The in-memory `self._cache` map, as an association list with the most
recent binding first. -/
abbrev MemCache := List (String × CacheEntry)

/-- Embeds `CacheService.set` (cache_service.py lines 146-181), in-memory branch:
`expires_at = utcnow + timedelta(seconds=ttl)`; the dictionary assignment
replaces any previous binding of the key. -/
def cache_set (c : MemCache) (key value : String) (ttl : ℤ) (now : ℤ) :
    MemCache :=
  (key, ⟨value, now + ttl, now⟩) :: c.filter fun p => p.1 ≠ key

/-- Embeds `CacheService.get` (cache_service.py lines 104-144), in-memory branch:
a missing key is a miss; an entry with `expires_at <= now` is deleted and
reported as a miss; otherwise the stored value is returned.  The result is
the returned value together with the possibly shrunk cache map. -/
def cache_get (c : MemCache) (key : String) (now : ℤ) :
    Option String × MemCache :=
  match c.lookup key with
  | none => (none, c)
  | some entry =>
    if entry.expires_at ≤ now then (none, c.filter fun p => p.1 ≠ key)
    else (some entry.value, c)

/-! ### Anthropic message preparation
(src/backend/app/automodel/providers/anthropic.py) -/

/-- A chat message dictionary.  `role` is `msg.get("role")`: `none` models a
dictionary without a `"role"` key (Python `None`). -/
structure Message where
  role : Option String
  content : String
deriving DecidableEq, Repr

/-- An element of a `List` content payload (anthropic.py lines 292-298):
either a dictionary carrying both a `"role"` and a `"content"` key, or any
other item, which is wrapped as a user message of its string form. -/
inductive ContentItem
  | msgDict (role : String) (content : String)
  | other (s : String)
deriving DecidableEq, Repr

/-- The `content` argument of `_prepare_messages`
(anthropic.py lines 286-300): a plain string, a dictionary with a
`"messages"` key, a list of items, or anything else (whose `str` form is
kept). -/
inductive Content
  | str (s : String)
  | dictMessages (msgs : List Message)
  | listItems (items : List ContentItem)
  | otherStr (s : String)
deriving DecidableEq, Repr

/-- Session-context messages with system roles filtered out
(anthropic.py lines 279-283); `none` models an absent session context or
one without a `"messages"` key. -/
def sessionMessages (session : Option (List Message)) : List Message :=
  match session with
  | none => []
  | some msgs => msgs.filter fun m => m.role ≠ some "system"

/-- The current-content branch of `_prepare_messages`
(anthropic.py lines 286-300). -/
def contentMessages : Content → List Message
  | .str s => [⟨some "user", s⟩]
  | .dictMessages msgs => msgs.filter fun m => m.role ≠ some "system"
  | .listItems items =>
    items.filterMap fun item =>
      match item with
      | .msgDict r c => if r = "system" then none else some ⟨some r, c⟩
      | .other s => some ⟨some "user", s⟩
  | .otherStr s => [⟨some "user", s⟩]

/-- The merge loop of `_prepare_messages` (anthropic.py lines 302-316).
`acc` is `cleaned_messages` in reverse (most recent first) and `last_role`
is the loop variable of the same name, initially `None`.  A message whose
role equals `last_role` is merged into the previous message by content
concatenation; when the accumulator is empty it is appended and, exactly as
in the source, `last_role` is left unchanged. -/
def mergeLoop : List Message → List Message → Option String → List Message
  | [], acc, _ => acc.reverse
  | msg :: rest, acc, last_role =>
    if msg.role = last_role then
      match acc with
      | [] => mergeLoop rest [msg] last_role
      | prev :: acc2 =>
        mergeLoop rest
          ({ prev with content := prev.content ++ "\n\n" ++ msg.content }
            :: acc2)
          last_role
    else mergeLoop rest (msg :: acc) msg.role

/-- The neutral user message inserted at anthropic.py lines 319-322. -/
def neutralUserMessage : Message :=
  ⟨some "user", "Please help me with the following:"⟩

/-- Final step of `_prepare_messages` (anthropic.py lines 318-322):
if the list is non-empty and does not start with a user message, prepend
the neutral user message. -/
def ensureUserFirst (msgs : List Message) : List Message :=
  match msgs with
  | [] => []
  | m :: _ =>
    if m.role ≠ some "user" then neutralUserMessage :: msgs else msgs

/-- Embeds `AnthropicProvider._prepare_messages` (anthropic.py lines 268-324),
message-list component.  The system prompt is computed separately and never
enters this list; `_process_message` passes it as the top-level `system`
field of the request payload (anthropic.py lines 235-236). -/
def prepare_messages (session : Option (List Message)) (content : Content) :
    List Message :=
  ensureUserFirst
    (mergeLoop (sessionMessages session ++ contentMessages content) [] none)

/-! ### Facade fallback (src/backend/app/automodel/automodel.py) -/

/-- The error kinds `AutoModel.process` distinguishes in its exception
handler (automodel.py lines 390-393); only the first three are tested for
a fallback pass.  `valueError` is the `ValueError` that pydantic raises
when an undeclared field is assigned on a model instance. -/
inductive ProcError
  | providerNotAvailable
  | modelNotFound
  | taskNotSupported
  | providerApi
  | processing
  | valueError
  | other
deriving DecidableEq, Repr

/-- The `isinstance` test at automodel.py lines 390-393. -/
def fallback_eligible : ProcError → Bool
  | .providerNotAvailable => true
  | .modelNotFound => true
  | .taskNotSupported => true
  | _ => false

/-- Embeds `AutoModel.process` (automodel.py lines 204-415), restricted to
its routing/fallback control flow.  `attempt pv mid` abstracts the body of
the `try` block — `_route_request` plus the provider call — for a request
whose pinned provider is `pv` and pinned model id is `mid`, all other
request fields held fixed.  On an eligible error with a pinned provider or
model and the `is_fallback` guard flag unset, the handler executes
`fallback_request.is_fallback = True` (line 402); `ProcessRequest`
declares no `is_fallback` field and no `extra` configuration, and pydantic
(v1 and v2 alike) rejects assignment of an undeclared field with
`ValueError`, raised inside the `except` block and outside the inner
`try`.  The recursive fallback call at line 406 is therefore unreachable,
and the `ValueError` propagates out of `process`, masking the original
error.  In every other error case the original error is re-raised. -/
def process {R : Type}
    (attempt : Option String → Option String → Except ProcError R)
    (provider model_id : Option String) (is_fallback : Bool) :
    Except ProcError R :=
  match attempt provider model_id with
  | .ok r => .ok r
  | .error e =>
    if fallback_eligible e && (provider.isSome || model_id.isSome)
        && !is_fallback then
      .error .valueError
    else .error e

/-! ### Model scoring (modelswapper_service.py `_score_models_by_criteria`) -/

/-- The request fields `_score_models_by_criteria` reads
(modelswapper_service.py lines 374-409). -/
structure ScoringRequest where
  estimated_tokens : ℕ
  priority : ModelPriority
deriving DecidableEq, Repr

/-- Embeds `_score_models_by_criteria` (modelswapper_service.py lines
374-409).  The loop body computes the reliability and latency components
of the first model and then calls `_calculate_cost` (line 392), which
raises `TypeError`; so the first iteration over any non-empty candidate
list raises, and only an empty list reaches the sort and returns (empty).
The composite-score ordering in the remainder of the function is dead
code. -/
def score_models_by_criteria (models : List MswapModel)
    (req : ScoringRequest) : Except MswapError (List MswapModel) :=
  match models with
  | [] => .ok []
  | _ :: _ => .error .typeError

/-- Embeds the admission portion of `select_best_model`
(modelswapper_service.py lines 259-290) for an already filtered candidate
list: step 2 raises `ValueError` when no model matches; step 3 scores the
models (which raises `TypeError` for any non-empty list); step 4 would take
the best model (`scored_models[0]`, an `IndexError` on an empty list) and
compute its cost; step 5 would check the spending limits
(`CostLimitException` on refusal).  The requested token count is never
compared against `max_tokens_per_request` anywhere in the pipeline. -/
def select_admission (tier : UserTier) (models : List MswapModel)
    (req : ScoringRequest) : Except MswapError Unit :=
  if models.isEmpty then
    .error (.valueError "No models match the specified requirements")
  else
    match score_models_by_criteria models req with
    | .error e => .error e
    | .ok [] => .error .indexError
    | .ok (best :: _) =>
      match calculate_cost best req.estimated_tokens with
      | .error e => .error e
      | .ok estimated_cost =>
        match check_user_spending_limits tier estimated_cost with
        | .ok () => .ok ()
        | .error msg => .error (.costLimit msg)

/-- Embeds the exception handler of `select_best_model`
(modelswapper_service.py lines 326-331): `CostLimitException` (and
`SecurityException`) are re-raised as they are; every other exception is
re-raised as `ValueError("Model selection failed: ...")` (the original
message is interpolated; only the fixed prefix is modelled). -/
def select_best_model_result (tier : UserTier) (models : List MswapModel)
    (req : ScoringRequest) : Except MswapError Unit :=
  match select_admission tier models req with
  | .ok () => .ok ()
  | .error (.costLimit msg) => .error (.costLimit msg)
  | .error _ => .error (.valueError "Model selection failed")

/-- Number of successful events in a ledger event sequence. -/
def succCount (events : List (Bool × ℚ)) : ℕ :=
  (events.filter fun e => e.1).length

/-- Sum of the latencies of the successful events. -/
def succSum (events : List (Bool × ℚ)) : ℚ :=
  ((events.filter fun e => e.1).map fun e => e.2).sum

/-! ## Theorems -/

/-- The check `check_spending` succeeds exactly when all four limit checks pass. -/
theorem check_spending_ok_iff (limits : SpendingLimits) (cd ch est : ℚ) :
    check_spending limits cd ch est = .ok () ↔
      cd + est ≤ limits.daily_cost_limit ∧
      ch + est ≤ limits.hourly_cost_limit ∧
      est ≤ limits.max_cost_per_request ∧
      est ≤ emergency_cost_threshold := by
  unfold check_spending
  split_ifs with h1 h2 h3 h4
  · exact iff_of_false (by simp) fun hc => absurd hc.1 (not_le.mpr h1)
  · exact iff_of_false (by simp) fun hc => absurd hc.2.1 (not_le.mpr h2)
  · exact iff_of_false (by simp) fun hc => absurd hc.2.2.1 (not_le.mpr h3)
  · exact iff_of_false (by simp) fun hc => absurd hc.2.2.2 (not_le.mpr h4)
  · exact iff_of_true rfl
      ⟨le_of_not_lt h1, le_of_not_lt h2, le_of_not_lt h3, le_of_not_lt h4⟩

/-- C1 (counterexample): for the free tier the remaining hourly allowance is
the full hourly cap `0.25` (the current hourly spending is the mock `0.00`),
yet a request estimated at exactly `0.25` is rejected, because it exceeds
the per-request cap `0.10` — contrary to the claim that a request whose
estimated cost equals the remaining hourly allowance is admitted. -/
theorem c1_counterexample :
    (1/4 : ℚ) = (get_tier_defaults .free).hourly_cost_limit - 0 ∧
    check_user_spending_limits .free (1/4) ≠ .ok () := by
  constructor
  · norm_num [get_tier_defaults]
  · intro h
    unfold check_user_spending_limits at h
    obtain ⟨-, -, h3, -⟩ := (check_spending_ok_iff _ _ _ _).1 h
    norm_num [get_tier_defaults] at h3

/-- C1 (amended): if the Gate admits a request then the daily, hourly and
per-request cost caps all hold at admission; the effective admission
boundary is the per-request cost cap, not the hourly allowance: a request
whose estimated cost exactly equals the per-request cap is admitted, and
one above the per-request cap is rejected with a `CostLimitException`. -/
theorem c1_gate_admission_bounds (tier : UserTier) (est : ℚ) :
    (check_user_spending_limits tier est = .ok () →
      0 + est ≤ (get_tier_defaults tier).daily_cost_limit ∧
      0 + est ≤ (get_tier_defaults tier).hourly_cost_limit ∧
      est ≤ (get_tier_defaults tier).max_cost_per_request) ∧
    (est = (get_tier_defaults tier).max_cost_per_request →
      check_user_spending_limits tier est = .ok ()) ∧
    ((get_tier_defaults tier).max_cost_per_request < est →
      check_user_spending_limits tier est ≠ .ok ()) := by
  unfold check_user_spending_limits
  refine ⟨fun h => ?_, fun h => ?_, fun h hok => ?_⟩
  · obtain ⟨h1, h2, h3, -⟩ := (check_spending_ok_iff _ _ _ _).1 h
    exact ⟨h1, h2, h3⟩
  · subst h
    refine (check_spending_ok_iff _ _ _ _).2 ?_
    cases tier <;> norm_num [get_tier_defaults, emergency_cost_threshold]
  · obtain ⟨-, -, h3, -⟩ := (check_spending_ok_iff _ _ _ _).1 hok
    exact absurd h3 (not_le.mpr h)

/-- Witness for `c1_gate_admission_bounds` at the free tier and an estimate
equal to the per-request cap. -/
theorem c1_gate_admission_bounds_witness :
    check_user_spending_limits .free (1/10) = .ok () :=
  (c1_gate_admission_bounds .free (1/10)).2.1 (by norm_num [get_tier_defaults])

/-- C2 (code bug): `_calculate_cost` never returns an estimated cost — the
`float × Decimal` multiplication raises `TypeError` on every call, in
particular at the claim's own inputs (a model priced 1 per 1000 tokens at
5 and at 1000 estimated tokens), instead of yielding the claimed
`(0.7·n/1000)·prompt_unit + (0.3·n/1000)·completion_unit`. -/
theorem c2_calculate_cost_raises :
    calculate_cost ⟨1, 1, 1, 0⟩ 5 = .error .typeError ∧
    calculate_cost ⟨1, 1, 1, 0⟩ 1000 = .error .typeError :=
  ⟨rfl, rfl⟩

/-- C3 (code bug): a free-tier request for 5000 tokens — far above the
2000-token free-tier cap — produces no token-cap rejection:
`max_tokens_per_request` is consulted nowhere, and the selection pipeline
fails for this (and every) request with the `ValueError` that wraps the
scoring `TypeError`, never with a `CostLimitException` and before any
provider driver could be invoked for a legitimate reason. -/
theorem c3_token_cap_not_enforced :
    select_best_model_result .free [⟨1/10000, 1/10000, 1, 0⟩] ⟨5000, .medium⟩
      = .error (.valueError "Model selection failed") ∧
    5000 > (get_tier_defaults .free).max_tokens_per_request := by
  constructor
  · rfl
  · norm_num [get_tier_defaults]

/-- C9: the selection is marked `SecurityLevel.user` with
`using_user_keys = true` exactly when the caller asked to use their own
keys and their tier is clawback, bigchonk or meowtrix; in every other case
it is marked `SecurityLevel.system` with `using_user_keys = false`. -/
theorem c9_security_marking (use_user_keys : Bool) (tier : UserTier) :
    ((select_security_level use_user_keys tier = .user ∧
        select_using_user_keys use_user_keys tier = true) ↔
      (use_user_keys = true ∧
        (tier = .clawback ∨ tier = .bigchonk ∨ tier = .meowtrix))) ∧
    (¬ (use_user_keys = true ∧
        (tier = .clawback ∨ tier = .bigchonk ∨ tier = .meowtrix)) →
      select_security_level use_user_keys tier = .system ∧
        select_using_user_keys use_user_keys tier = false) := by
  cases use_user_keys <;> cases tier <;> decide

/-- Witness for `c9_security_marking`: a free-tier caller asking for user
keys still gets a system-level selection. -/
theorem c9_security_marking_witness :
    select_security_level true .free = .system ∧
      select_using_user_keys true .free = false :=
  (c9_security_marking true .free).2 (by decide)

/-- C10: updating metrics for a model id that has no entry in the
performance-metrics map returns the map unchanged — no error, no new
entry, and every existing entry untouched. -/
theorem c10_unknown_model_noop (perf : MetricsMap) (model_id : String)
    (success : Bool) (response_time now : ℚ)
    (h : perf.lookup model_id = none) :
    update_model_metrics perf model_id success response_time now = perf := by
  unfold update_model_metrics
  rw [h]
  rfl

/-- Witness for `c10_unknown_model_noop` on a one-entry map and an unknown
model id. -/
theorem c10_unknown_model_noop_witness :
    update_model_metrics [("claude-3-haiku-20240307", initMetrics)] "gpt-4o"
        true 1 0 =
      [("claude-3-haiku-20240307", initMetrics)] :=
  c10_unknown_model_noop _ _ _ _ _ (by rfl)

/-- C4 (code bug): a successful attempt is returned as is, and an error
with nothing pinned (or of an ineligible kind) is surfaced immediately
with no fallback attempt — but on an eligible error with a pinned provider
or model id, no fallback pass runs: the pydantic assignment
`fallback_request.is_fallback = True` raises `ValueError` before the
recursive call, and that `ValueError` masks the original error, whatever a
fallback attempt would have returned. -/
theorem c4_fallback_unreachable {R : Type}
    (attempt : Option String → Option String → Except ProcError R)
    (provider model_id : Option String) :
    (∀ r, attempt provider model_id = .ok r →
      process attempt provider model_id false = .ok r) ∧
    (∀ e, attempt provider model_id = .error e → fallback_eligible e = true →
      (provider.isSome || model_id.isSome) = true →
      process attempt provider model_id false = .error .valueError) ∧
    (∀ e, attempt provider model_id = .error e →
      (fallback_eligible e = false ∨ (provider = none ∧ model_id = none)) →
      process attempt provider model_id false = .error e) := by
  refine ⟨fun r h => ?_, fun e h helig hpin => ?_, fun e h hcase => ?_⟩
  · rw [process, h]
  · rw [process, h]
    simp [helig, hpin]
  · rw [process, h]
    rcases hcase with hineligible | ⟨rfl, rfl⟩
    · simp [hineligible]
    · simp

/-- Witness for `c4_fallback_unreachable`: a pinned request whose routing
fails with `ModelNotFoundError` ends in the masking `ValueError`, not in a
fallback result and not in the original error. -/
theorem c4_fallback_unreachable_witness :
    process (fun _ _ => (.error .modelNotFound : Except ProcError ℕ))
        (some "anthropic") (some "claude-3-opus-20240229") false
      = .error .valueError :=
  (c4_fallback_unreachable
      (fun _ _ => (.error .modelNotFound : Except ProcError ℕ))
      (some "anthropic") (some "claude-3-opus-20240229")).2.1
    .modelNotFound rfl rfl rfl

/-- A key filtered out of an association list cannot be looked up. -/
theorem lookup_filter_ne {β : Type} (l : List (String × β)) (key : String) :
    (l.filter fun p => p.1 ≠ key).lookup key = none := by
  induction l with
  | nil => rfl
  | cons hd tl ih =>
    by_cases hk : hd.1 = key
    · simpa [List.filter_cons, hk] using ih
    · have hb : (key == hd.1) = false := by
        simp [Ne.symm hk]
      simp only [List.filter_cons, hk, List.lookup, hb, ih]
      simp [hk, List.lookup, hb, ih]
      exact fun a b _ hne hkey => hne hkey.symm

/-- C7: a `get` strictly later than the write time plus the TTL misses, and
the expired entry is removed from the in-memory cache map. -/
theorem c7_ttl_expiry_miss (c : MemCache) (key value : String)
    (ttl t_w now : ℤ) (h : t_w + ttl < now) :
    (cache_get (cache_set c key value ttl t_w) key now).1 = none ∧
    ((cache_get (cache_set c key value ttl t_w) key now).2.lookup key)
      = none := by
  have hle : t_w + ttl ≤ now := le_of_lt h
  simp [cache_get, cache_set, List.lookup, hle, lookup_filter_ne]
  exact fun a b _ hne hkey => hne hkey.symm

/-- Witness for `c7_ttl_expiry_miss`: a key written at time 0 with the
default TTL of 3600 s misses at time 3601 and is gone from the map. -/
theorem c7_ttl_expiry_miss_witness :
    (cache_get (cache_set [] "k" "v" 3600 0) "k" 3601).1 = none ∧
    ((cache_get (cache_set [] "k" "v" 3600 0) "k" 3601).2.lookup "k")
      = none :=
  c7_ttl_expiry_miss [] "k" "v" 3600 0 3601 (by norm_num)

/-- C5 (code bug): `_score_models_by_criteria` raises `TypeError` (via
`_calculate_cost`) on every non-empty candidate list — shown here at a
one-model list — and the only list it ever returns is the empty one, so
the program never produces the composite-score ordering the claim
describes. -/
theorem c5_scoring_never_returns :
    score_models_by_criteria [⟨1, 1, 1, 0⟩] ⟨1000, .medium⟩
      = .error .typeError ∧
    (∀ (models : List MswapModel) (req : ScoringRequest)
      (result : List MswapModel),
      score_models_by_criteria models req = .ok result → result = []) := by
  refine ⟨rfl, ?_⟩
  intro models req result h
  cases models with
  | nil =>
    rw [show score_models_by_criteria [] req = .ok [] from rfl] at h
    exact (Except.ok.inj h).symm
  | cons a l =>
    rw [show score_models_by_criteria (a :: l) req = .error .typeError
      from rfl] at h
    exact absurd h (by simp)

/-- Witness for `c5_scoring_never_returns`: the empty candidate list is
the one input the scoring function returns on, and it returns the empty
list. -/
theorem c5_scoring_never_returns_witness :
    score_models_by_criteria [] ⟨1000, .medium⟩ = .ok [] ∧
    ([] : List MswapModel) = [] :=
  ⟨rfl, c5_scoring_never_returns.2 [] ⟨1000, .medium⟩ [] rfl⟩

/-- Folding one more event is one `updateMetrics` step. -/
theorem applyEvents_concat (events : List (Bool × ℚ)) (e : Bool × ℚ) :
    applyEvents (events ++ [e]) =
      updateMetrics (applyEvents events) e.1 e.2 0 := by
  unfold applyEvents
  rw [List.foldl_append]
  rfl

/-- Success count over an extended event sequence. -/
theorem succCount_concat (events : List (Bool × ℚ)) (e : Bool × ℚ) :
    succCount (events ++ [e]) = succCount events + (if e.1 then 1 else 0) := by
  cases he : e.1 <;> simp [succCount, List.filter_append, he]

/-- Success latency sum over an extended event sequence. -/
theorem succSum_concat (events : List (Bool × ℚ)) (e : Bool × ℚ) :
    succSum (events ++ [e]) = succSum events + (if e.1 then e.2 else 0) := by
  cases he : e.1 <;> simp [succSum, List.filter_append, he]

/-- There are at most as many successes as events. -/
theorem succCount_le_length (events : List (Bool × ℚ)) :
    succCount events ≤ events.length :=
  List.length_filter_le _ _

/-- Every `updateMetrics` step recomputes the error rate as
failed/total (the total is positive after the step). -/
theorem updateMetrics_error_rate (m : ModelMetrics) (s : Bool) (rt now : ℚ) :
    (updateMetrics m s rt now).error_rate =
      ((updateMetrics m s rt now).failed_requests : ℚ) /
        ((updateMetrics m s rt now).total_requests : ℚ) := by
  cases s <;> simp [updateMetrics]

/-- Running statistics of the metrics entry after a sequence of events. -/
theorem applyEvents_stats (events : List (Bool × ℚ)) :
    (applyEvents events).total_requests = events.length ∧
    (applyEvents events).successful_requests = succCount events ∧
    (applyEvents events).total_requests =
      (applyEvents events).successful_requests +
        (applyEvents events).failed_requests ∧
    (applyEvents events).average_response_time * (succCount events : ℚ)
      = succSum events ∧
    (succCount events = 0 → (applyEvents events).average_response_time = 0) := by
  induction events using List.reverseRecOn with
  | nil => simp [applyEvents, initMetrics, succCount, succSum]
  | append_singleton es e ih =>
    obtain ⟨iht, ihs, ihtot, iha, ihz⟩ := ih
    obtain ⟨s, rt⟩ := e
    rw [applyEvents_concat]
    cases s with
    | false =>
      refine ⟨?_, ?_, ?_, ?_, ?_⟩
      · simp [updateMetrics, iht]
      · simp [updateMetrics, ihs, succCount_concat]
      · simp only [updateMetrics]
        simp
        omega
      · simp [updateMetrics, succCount_concat, succSum_concat, iha]
      · intro hz
        rw [succCount_concat] at hz
        simp at hz
        simp [updateMetrics, ihz hz]
    | true =>
      refine ⟨?_, ?_, ?_, ?_, ?_⟩
      · simp [updateMetrics, iht]
      · simp [updateMetrics, ihs, succCount_concat]
      · simp only [updateMetrics]
        simp
        omega
      · simp only [updateMetrics, succCount_concat, succSum_concat]
        simp only [ihs]
        have hne : ((succCount es : ℚ) + 1) ≠ 0 := by positivity
        push_cast
        field_simp
        linarith [iha]
      · intro hz
        rw [succCount_concat] at hz
        simp at hz

/-- C6: after `N` ledger updates of which `k` succeeded, the entry records
`totalRequests = N`, `successfulRequests = k`, `failedRequests = N − k`,
`errorRate = (N − k)/N`, and the average response time is the running mean
of the successful latencies, left untouched by failed requests. -/
theorem c6_ledger_statistics (events : List (Bool × ℚ)) :
    (applyEvents events).total_requests = events.length ∧
    (applyEvents events).successful_requests = succCount events ∧
    (applyEvents events).failed_requests = events.length - succCount events ∧
    (events ≠ [] →
      (applyEvents events).error_rate =
        ((events.length - succCount events : ℕ) : ℚ) /
          (events.length : ℚ)) ∧
    (applyEvents events).average_response_time * (succCount events : ℚ)
      = succSum events ∧
    (∀ (m : ModelMetrics) (rt now : ℚ),
      (updateMetrics m false rt now).average_response_time
        = m.average_response_time) := by
  obtain ⟨iht, ihs, ihtot, iha, -⟩ := applyEvents_stats events
  have hcle := succCount_le_length events
  have hfail : (applyEvents events).failed_requests
      = events.length - succCount events := by omega
  refine ⟨iht, ihs, hfail, ?_, iha, ?_⟩
  · intro hne
    obtain (rfl | ⟨L, b, rfl⟩) := events.eq_nil_or_concat
    · exact absurd rfl hne
    · simp only [List.concat_eq_append] at hfail iht ⊢
      have herr := updateMetrics_error_rate (applyEvents L) b.1 b.2 0
      rw [← applyEvents_concat] at herr
      rw [herr, hfail, iht]
  · intro m rt now
    simp [updateMetrics]

/-- Witness for `c6_ledger_statistics`: one success and one failure give an
error rate of one half. -/
theorem c6_ledger_statistics_witness :
    (applyEvents [(true, 2), (false, 4)]).error_rate = 1 / 2 := by
  have h := (c6_ledger_statistics [(true, 2), (false, 4)]).2.2.2.1 (by simp)
  simpa [succCount] using h

/-- Unfolding equation of `mergeLoop` on a non-empty input. -/
theorem mergeLoop_cons (msg : Message) (rest acc : List Message)
    (last_role : Option String) :
    mergeLoop (msg :: rest) acc last_role =
      if msg.role = last_role then
        match acc with
        | [] => mergeLoop rest [msg] last_role
        | prev :: acc2 =>
          mergeLoop rest
            ({ prev with content := prev.content ++ "\n\n" ++ msg.content }
              :: acc2) last_role
      else mergeLoop rest (msg :: acc) msg.role := by
  rw [mergeLoop.eq_def]

/-- The merge loop keeps adjacent roles distinct, provided the reversed
accumulator already has that shape and its head carries `last_role`. -/
theorem mergeLoop_chain' (input : List Message) :
    ∀ (acc : List Message) (last_role : Option String),
      acc.Chain' (fun a b => a.role ≠ b.role) →
      (∀ a, acc.head? = some a → a.role = last_role) →
      (mergeLoop input acc last_role).Chain' (fun a b => a.role ≠ b.role) := by
  induction input with
  | nil =>
    intro acc last_role hacc _
    show (acc.reverse).Chain' fun a b => a.role ≠ b.role
    rw [List.chain'_reverse]
    exact hacc.imp fun a b hab hba => hab hba.symm
  | cons msg rest ih =>
    intro acc last_role hacc hhead
    rw [mergeLoop_cons]
    split_ifs with hrole
    · cases acc with
      | nil =>
        refine ih [msg] last_role (List.chain'_singleton _) ?_
        intro a ha
        simp only [List.head?_cons, Option.some.injEq] at ha
        subst ha
        exact hrole
      | cons prev acc2 =>
        refine ih _ last_role ?_ ?_
        · rw [List.chain'_cons'] at hacc ⊢
          exact ⟨fun b hb => hacc.1 b hb, hacc.2⟩
        · intro a ha
          simp only [List.head?_cons, Option.some.injEq] at ha
          subst ha
          exact hhead prev rfl
    · refine ih _ msg.role ?_ ?_
      · rw [List.chain'_cons']
        refine ⟨fun b hb => ?_, hacc⟩
        have hb2 : b.role = last_role := hhead b (Option.mem_def.mp hb)
        exact fun heq => hrole (heq.trans hb2)
      · intro a ha
        simp only [List.head?_cons, Option.some.injEq] at ha
        subst ha
        rfl

/-- Every message produced by the merge loop carries a role already present
in the input or the accumulator (merging never invents a role). -/
theorem mergeLoop_roles (P : Option String → Prop) (input : List Message) :
    ∀ (acc : List Message) (last_role : Option String),
      (∀ m ∈ input, P m.role) → (∀ m ∈ acc, P m.role) →
      ∀ m ∈ mergeLoop input acc last_role, P m.role := by
  induction input with
  | nil =>
    intro acc last_role _ hacc m hm
    have hm2 : m ∈ acc.reverse := hm
    exact hacc m (List.mem_reverse.mp hm2)
  | cons msg rest ih =>
    intro acc last_role hinput hacc m hm
    rw [mergeLoop_cons] at hm
    split_ifs at hm with hrole
    · cases acc with
      | nil =>
        refine ih [msg] last_role (fun x hx => hinput x (by simp [hx])) ?_ m hm
        intro x hx
        simp only [List.mem_singleton] at hx
        rw [hx]
        exact hinput msg (by simp)
      | cons prev acc2 =>
        refine ih _ last_role (fun x hx => hinput x (by simp [hx])) ?_ m hm
        intro x hx
        rcases List.mem_cons.mp hx with rfl | hx2
        · exact hacc prev (by simp)
        · exact hacc x (by simp [hx2])
    · refine ih _ msg.role (fun x hx => hinput x (by simp [hx])) ?_ m hm
      intro x hx
      rcases List.mem_cons.mp hx with hxm | hx2
      · rw [hxm]
        exact hinput msg (by simp)
      · exact hacc x hx2

/-- No system-role message survives the session-context filter. -/
theorem sessionMessages_no_system (session : Option (List Message)) :
    ∀ m ∈ sessionMessages session, m.role ≠ some "system" := by
  intro m hm
  cases session with
  | none => simp [sessionMessages] at hm
  | some msgs =>
    simp only [sessionMessages, List.mem_filter, decide_eq_true_eq] at hm
    exact hm.2

/-- No system-role message survives the content translation. -/
theorem contentMessages_no_system (content : Content) :
    ∀ m ∈ contentMessages content, m.role ≠ some "system" := by
  intro m hm
  cases content with
  | str s =>
    simp only [contentMessages, List.mem_singleton] at hm
    subst hm
    simp
  | dictMessages msgs =>
    simp only [contentMessages, List.mem_filter, decide_eq_true_eq] at hm
    exact hm.2
  | listItems items =>
    simp only [contentMessages, List.mem_filterMap] at hm
    obtain ⟨item, -, heq⟩ := hm
    cases item with
    | msgDict r c =>
      have heq2 : (if r = "system" then none
          else some (⟨some r, c⟩ : Message)) = some m := heq
      by_cases hr : r = "system"
      · rw [if_pos hr] at heq2
        exact absurd heq2 (by simp)
      · rw [if_neg hr] at heq2
        obtain rfl := Option.some.inj heq2
        simpa using hr
    | other s =>
      have heq2 : some (⟨some "user", s⟩ : Message) = some m := heq
      obtain rfl := Option.some.inj heq2
      simp
  | otherStr s =>
    simp only [contentMessages, List.mem_singleton] at hm
    subst hm
    simp

/-- C8: the message list the Anthropic driver prepares has no two
consecutive messages with the same role (same-role runs are merged by
content concatenation), contains no system-role message (the system prompt
travels as a top-level field), and, when non-empty, starts with a user
message — a neutral user message is prepended whenever the first merged
message is not from the user. -/
theorem c8_anthropic_message_shape (session : Option (List Message))
    (content : Content) :
    (prepare_messages session content).Chain' (fun a b => a.role ≠ b.role) ∧
    (∀ m ∈ prepare_messages session content, m.role ≠ some "system") ∧
    (∀ m, (prepare_messages session content).head? = some m →
      m.role = some "user") := by
  have hmergedChain :
      (mergeLoop (sessionMessages session ++ contentMessages content) []
        none).Chain' (fun a b => a.role ≠ b.role) :=
    mergeLoop_chain' _ [] none List.chain'_nil (by simp)
  have hmergedRoles :
      ∀ m ∈ mergeLoop (sessionMessages session ++ contentMessages content) []
        none, m.role ≠ some "system" := by
    refine mergeLoop_roles (fun r => r ≠ some "system") _ [] none
      (fun m hm => ?_) (fun m hm => absurd hm (List.not_mem_nil m))
    rcases List.mem_append.mp hm with h | h
    · exact sessionMessages_no_system session m h
    · exact contentMessages_no_system content m h
  unfold prepare_messages
  cases hm : mergeLoop (sessionMessages session ++ contentMessages content)
      [] none with
  | nil => simp [ensureUserFirst]
  | cons first rest =>
    rw [hm] at hmergedChain hmergedRoles
    have hred : ensureUserFirst (first :: rest) =
        if first.role ≠ some "user" then neutralUserMessage :: first :: rest
        else first :: rest := rfl
    rw [hred]
    split_ifs with hfirst
    · refine ⟨?_, ?_, ?_⟩
      · rw [List.chain'_cons']
        refine ⟨fun b hb => ?_, hmergedChain⟩
        have hb2 : first = b := by
          simpa using Option.mem_def.mp hb
        subst hb2
        exact fun h => hfirst h.symm
      · intro m hmem
        rcases List.mem_cons.mp hmem with rfl | h2
        · simp [neutralUserMessage]
        · exact hmergedRoles m h2
      · intro m hhead
        simp only [List.head?_cons, Option.some.injEq] at hhead
        subst hhead
        rfl
    · rw [not_not] at hfirst
      refine ⟨hmergedChain, hmergedRoles, ?_⟩
      intro m hhead
      simp only [List.head?_cons, Option.some.injEq] at hhead
      subst hhead
      exact hfirst

/-- Witness for `c8_anthropic_message_shape`: a plain string content with
no session context becomes a single user message, and the head of the
prepared list is a user message. -/
theorem c8_anthropic_message_shape_witness :
    (prepare_messages none (.str "hello")).head?
      = some ⟨some "user", "hello"⟩ ∧
    (⟨some "user", "hello"⟩ : Message).role = some "user" :=
  ⟨rfl, (c8_anthropic_message_shape none (.str "hello")).2.2
    ⟨some "user", "hello"⟩ rfl⟩

end ChatChonk
